import Mathlib

/-!
Shallow embedding of the trade-finance compliance screening and risk
scoring components of the repository, together with proofs about them.

Source files embedded:
- src/skills/compliance_screening/scripts/fuzzy_matcher.py
- src/skills/compliance_screening/scripts/country_risk.py
- src/skills/compliance_screening/scripts/screen_entity.py
- src/skills/compliance_screening/scripts/batch_screen.py
- src/skills/risk_assessment/scripts/extract_features.py
- src/skills/risk_assessment/scripts/score_entity.py

Strings are modelled by Lean strings; Python string operations are
implemented on the underlying character lists.  Floating point numbers
are modelled by rationals.  The Neo4j graph store is modelled by the
data the embedded functions read from it: the list of sanction records,
the outcome of the network-exposure query, and the list of in-window
letter-of-credit records for an entity (or a store error).
-/

namespace TradeFinance

/-! ### Name normalizer (fuzzy_matcher.normalize_name) -/

/-- The legal-entity suffixes stripped by normalize_name, in source order. -/
def SUFFIXES : List String :=
  [" LTD", " LIMITED", " INC", " CORP", " CORPORATION",
   " LLC", " CO", " COMPANY", " PTE", " GMBH"]

/-- Python str.upper restricted to ASCII, on character lists. -/
def pyUpperL (l : List Char) : List Char := l.map Char.toUpper

/-- One pass over the suffix list: each suffix is removed when the current
name ends with it, mirroring the for-loop in normalize_name. -/
def stripSuffixesL (l : List Char) : List Char :=
  SUFFIXES.foldl
    (fun n suf =>
      if suf.data.isSuffixOf n then n.take (n.length - suf.data.length) else n)
    l

/-- Keep alphanumeric and whitespace characters, replace the rest by a
space, mirroring the comprehension in normalize_name. -/
def alnumSpaceL (l : List Char) : List Char :=
  l.map (fun c => if c.isAlphanum || c.isWhitespace then c else ' ')

/-- Helper for whitespace splitting: the accumulator holds the current
token reversed. -/
def splitWsAux : List Char → List Char → List (List Char)
  | [], [] => []
  | [], acc => [acc.reverse]
  | c :: cs, acc =>
    if c.isWhitespace then
      match acc with
      | [] => splitWsAux cs []
      | _ => acc.reverse :: splitWsAux cs []
    else splitWsAux cs (c :: acc)

/-- Python str.split with no argument: split on whitespace runs, dropping
empty tokens. -/
def splitWsL (l : List Char) : List (List Char) := splitWsAux l []

/-- Python str.join with a single space, on token lists. -/
def joinSpL : List (List Char) → List Char
  | [] => []
  | [t] => t
  | t :: ts => t ++ ' ' :: joinSpL ts

/-- Python str.strip: drop leading and trailing whitespace. -/
def trimWsL (l : List Char) : List Char :=
  ((l.dropWhile Char.isWhitespace).reverse.dropWhile Char.isWhitespace).reverse

/-- The normalization pipeline of normalize_name on character lists. -/
def normChars (l : List Char) : List Char :=
  trimWsL (joinSpL (splitWsL (alnumSpaceL (stripSuffixesL (pyUpperL l)))))

/-- Embedding of fuzzy_matcher.normalize_name: uppercase, strip one pass
of legal-entity suffixes, replace non-alphanumeric characters by spaces,
collapse whitespace, trim.  Empty input yields the empty string. -/
def normalize_name (s : String) : String :=
  if s = "" then "" else String.mk (normChars s.data)

/-! ### Fuzzy matcher (fuzzy_matcher.fuzzy_match_sanctions)

The configured similarity algorithm is rapidfuzz fuzz.token_sort_ratio
(config.FUZZY_ALGORITHM = "token_sort_ratio" selects the final branch of
the scorer choice in fuzzy_match_sanctions).  fuzz.ratio is the
normalized indel similarity 100 * (1 - dist / (len a + len b)) where
dist = len a + len b - 2 * lcs a b, so ratio = 200 * lcs / (len a + len b).
token_sort_ratio applies ratio after sorting the whitespace-separated
tokens of both strings. -/

/-- The list remaining after the first occurrence of a character, if any. -/
def dropAfterFirst (a : Char) : List Char → Option (List Char)
  | [] => none
  | b :: bs => if a = b then some bs else dropAfterFirst a bs

/-- Length of a longest common subsequence.  Matching the head of the
first list against the first occurrence in the second is optimal, which
gives a recursion structural in the first list. -/
def lcsLen : List Char → List Char → Nat
  | [], _ => 0
  | a :: as, ys =>
    match dropAfterFirst a ys with
    | none => lcsLen as ys
    | some rest => max (lcsLen as ys) (1 + lcsLen as rest)

/-- rapidfuzz fuzz.ratio as a rational in [0, 100]. -/
def fuzz_ratio_score (a b : String) : ℚ :=
  if a.length + b.length = 0 then 100
  else (200 * lcsLen a.data b.data : ℚ) / (a.length + b.length)

/-- Stable insertion of a string into a sorted list (equal elements keep
their original relative order, as in Python sorted). -/
def insertSorted (x : String) : List String → List String
  | [] => [x]
  | y :: ys => if x < y then x :: y :: ys else y :: insertSorted x ys

/-- Stable sort of a list of strings. -/
def sortStrings (l : List String) : List String :=
  l.foldl (fun acc x => insertSorted x acc) []

/-- Sort the whitespace-separated tokens of a string and join them with
single spaces, as rapidfuzz does before token_sort_ratio scoring. -/
def tokenSort (s : String) : String :=
  String.intercalate " " (sortStrings ((splitWsL s.data).map String.mk))

/-- rapidfuzz fuzz.token_sort_ratio. -/
def token_sort_ratio_score (a b : String) : ℚ :=
  fuzz_ratio_score (tokenSort a) (tokenSort b)

/-- Candidate scan of rapidfuzz process.extractOne: keep the first index
with the strictly best score. -/
def extractOneAux (q : String) : List String → Nat → Option (Nat × ℚ) → Option (Nat × ℚ)
  | [], _, best => best
  | c :: cs, i, best =>
    let s := token_sort_ratio_score q c
    let best' :=
      match best with
      | none => some (i, s)
      | some (_, bs) => if s > bs then some (i, s) else best
    extractOneAux q cs (i + 1) best'

/-- rapidfuzz process.extractOne over a list of choices with a score
cutoff: the best match is returned only when its score reaches the
cutoff (matches scoring below score_cutoff are ignored). -/
def extractOne (q : String) (choices : List String) (cutoff : ℚ) : Option (Nat × ℚ) :=
  match extractOneAux q choices 0 none with
  | none => none
  | some (i, s) => if s ≥ cutoff then some (i, s) else none

/-- config.FUZZY_THRESHOLD (0.85, on the 0-1 scale). -/
def FUZZY_THRESHOLD : ℚ := 85 / 100

/-- A record of the sanctions reference list as read from the store:
name and list_type are always present, program and country may be null. -/
structure SanctionRecord where
  name : String
  list_type : String
  program : Option String
  country : Option String
deriving DecidableEq

/-- Embedding of fuzzy_matcher.fuzzy_match_sanctions.  A None threshold
is replaced by config.FUZZY_THRESHOLD * 100 (0.85 converted to 85); an
explicitly passed threshold is used as the extractOne cutoff unchanged.
Query and reference names are normalized before scoring; the returned
score is divided by 100. -/
def fuzzy_match_sanctions (query_name : String) (sanctions_list : List SanctionRecord)
    (threshold : Option ℚ) : Option (SanctionRecord × ℚ) :=
  let th := threshold.getD (FUZZY_THRESHOLD * 100)
  let normalized_query := normalize_name query_name
  if normalized_query = "" then none
  else
    let sanctions_names := sanctions_list.map (fun s => normalize_name s.name)
    match extractOne normalized_query sanctions_names th with
    | none => none
    | some (i, score) =>
      match sanctions_list[i]? with
      | some r => some (r, score / 100)
      | none => none

/-! ### Country risk table (country_risk.py) -/

/-- The static COUNTRY_RISK_SCORES table: ISO code to (score, level). -/
def COUNTRY_RISK_SCORES : List (String × Int × String) :=
  [("IR", 10, "high"), ("KP", 10, "high"), ("SY", 10, "high"), ("VE", 9, "high"),
   ("RU", 9, "high"), ("BY", 8, "high"), ("MM", 8, "high"), ("AF", 8, "high"),
   ("PK", 7, "medium"), ("YE", 7, "medium"), ("IQ", 7, "medium"), ("LY", 7, "medium"),
   ("SO", 7, "medium"), ("SD", 6, "medium"), ("CD", 6, "medium"),
   ("TH", 5, "medium"), ("PH", 5, "medium"), ("BD", 5, "medium"), ("NG", 5, "medium"),
   ("KE", 4, "medium"), ("IN", 4, "medium"), ("TR", 4, "medium"), ("BR", 4, "medium"),
   ("ZA", 4, "medium"),
   ("CN", 3, "low"), ("MX", 3, "low"), ("ID", 3, "low"), ("AE", 3, "low"),
   ("SA", 3, "low"),
   ("US", 1, "low"), ("GB", 1, "low"), ("DE", 1, "low"), ("FR", 1, "low"),
   ("JP", 1, "low"), ("SG", 1, "low"), ("HK", 1, "low"), ("AU", 1, "low"),
   ("CA", 1, "low"), ("CH", 1, "low"), ("NL", 1, "low"), ("SE", 1, "low"),
   ("NO", 1, "low"), ("DK", 1, "low"), ("NZ", 1, "low"), ("KR", 2, "low"),
   ("TW", 2, "low"), ("MY", 2, "low")]

/-- Python str.upper on whole strings (ASCII). -/
def pyUpperStr (s : String) : String := String.mk (pyUpperL s.data)

/-- Result of country_risk.get_country_risk. -/
structure CountryRisk where
  country : String
  risk_score : Int
  risk_level : String
  known : Bool
deriving DecidableEq

/-- Embedding of country_risk.get_country_risk: uppercase the code, look
it up in the static table, default to score 5 / medium / known false for
unrecognized codes. -/
def get_country_risk (country_code : String) : CountryRisk :=
  let cc := pyUpperStr country_code
  match COUNTRY_RISK_SCORES.find? (fun e => e.1 == cc) with
  | none => { country := cc, risk_score := 5, risk_level := "medium", known := false }
  | some (_, s, l) => { country := cc, risk_score := s, risk_level := l, known := true }

/-! ### Entity screening (screen_entity.py)

The Neo4j session is modelled by the data the three read-only queries
return: the list of SanctionEntity records (used by the exact and fuzzy
match queries) and the outcome of the two-hop network-exposure query
(network_hit).  The exact-match query compares toUpper(s.name) with the
normalized query name.  screening_time_ms, a wall-clock measurement, is
not modelled. -/

/-- The result dict of screen_entity, in initialization order. -/
structure ScreeningResult where
  entity_name : String
  entity_country : String
  entity_type : String
  sanctions_match : Bool := false
  match_type : Option String := none
  matched_entity : Option String := none
  match_score : Option ℚ := none
  sanctions_list : Option String := none
  program : Option String := none
  country_risk : Option String := none
  country_risk_score : Option Int := none
  network_exposure : Bool := false
  recommendation : String := "APPROVE"
deriving DecidableEq

/-- Steps 1 to 3 of screen_entity: exact sanctions match, fuzzy sanctions
match when the exact match misses, then the network-exposure check when
both missed.  The threshold passed on to fuzzy_match_sanctions is the
fuzzy_threshold argument defaulted to config.FUZZY_THRESHOLD (0.85). -/
def screen_steps123 (entity_name entity_country entity_type : String)
    (fuzzy_threshold : Option ℚ) (check_network : Bool)
    (sanctions : List SanctionRecord) (network_hit : Bool) : ScreeningResult :=
  let threshold := fuzzy_threshold.getD FUZZY_THRESHOLD
  let base : ScreeningResult := { entity_name, entity_country, entity_type }
  let normalized := normalize_name entity_name
  let afterSanctions :=
    match sanctions.find? (fun s => pyUpperStr s.name == normalized) with
    | some s =>
      { base with
          sanctions_match := true, match_type := some "exact",
          matched_entity := some s.name, match_score := some 1,
          sanctions_list := some s.list_type, program := s.program,
          recommendation := "BLOCK" }
    | none =>
      match fuzzy_match_sanctions entity_name sanctions (some threshold) with
      | some (s, score) =>
        { base with
            sanctions_match := true, match_type := some "fuzzy",
            matched_entity := some s.name, match_score := some score,
            sanctions_list := some s.list_type, program := s.program,
            recommendation := if score < 95 / 100 then "REVIEW" else "BLOCK" }
      | none => base
  if check_network && !afterSanctions.sanctions_match && network_hit then
    { afterSanctions with network_exposure := true, recommendation := "REVIEW" }
  else afterSanctions

/-- Step 4 of screen_entity: record the country risk and upgrade an
APPROVE to REVIEW when the country risk score is at least 8. -/
def country_risk_step (r : ScreeningResult) (c : CountryRisk) : ScreeningResult :=
  let r2 := { r with country_risk := some c.risk_level,
                     country_risk_score := some c.risk_score }
  if c.risk_score ≥ 8 ∧ r2.recommendation = "APPROVE" then
    { r2 with recommendation := "REVIEW" }
  else r2

/-- Embedding of screen_entity.screen_entity: steps 1 to 3 followed by
the country-risk step. -/
def screen_entity (entity_name entity_country entity_type : String)
    (fuzzy_threshold : Option ℚ) (check_network : Bool)
    (sanctions : List SanctionRecord) (network_hit : Bool) : ScreeningResult :=
  country_risk_step
    (screen_steps123 entity_name entity_country entity_type fuzzy_threshold
      check_network sanctions network_hit)
    (get_country_risk entity_country)

/-! ### Batch screening (batch_screen.py)

Each submitted entity yields exactly one future; a future that raises is
converted into an ERROR-tagged entry.  The per-entity screening outcome
is modelled by a function from the entity to Except (an exception
message or a ScreeningResult); as_completed ordering is abstracted to
input order, which the embedded count and membership facts do not
depend on.  After collecting, the summary logging divides the BLOCK,
REVIEW and APPROVE counts by the total count; with an empty input this
division raises ZeroDivisionError, which the embedding surfaces as an
error value. -/

/-- An input entity of batch_screen. -/
structure BatchEntity where
  name : String
  country : String
  type : Option String
deriving DecidableEq

/-- One entry of the batch_screen output list: either a screening result
or the ERROR-tagged dict built in the except branch. -/
inductive BatchEntry where
  | screened (r : ScreeningResult) : BatchEntry
  | errored (entity_name : String) (error : String) : BatchEntry
deriving DecidableEq

/-- The recommendation field of a batch entry (ERROR for the except-branch
dict). -/
def BatchEntry.recommendation : BatchEntry → String
  | .screened r => r.recommendation
  | .errored _ _ => "ERROR"

/-- Embedding of batch_screen.batch_screen.  outcome models
future.result() for one entity: the screening result, or the message of
the exception it raised.  The summary percentages divide by the number
of collected results, so an empty batch raises ZeroDivisionError before
anything is returned. -/
def batch_screen (entities : List BatchEntity)
    (outcome : BatchEntity → Except String ScreeningResult) :
    Except String (List BatchEntry) :=
  let results := entities.map (fun e =>
    match outcome e with
    | .ok r => BatchEntry.screened r
    | .error msg => BatchEntry.errored e.name msg)
  let total := results.length
  if total = 0 then .error "ZeroDivisionError: division by zero"
  else .ok results

/-! ### Feature extraction (extract_features.py)

The graph store is modelled by what the queries of
extract_entity_features read: the list of in-window letters of credit
linked to the entity, each carrying the properties the Cypher queries
inspect, the counterparty reached through it, and the country-risk score
of its port country when present.  A store value of none models an
entity absent from the graph (result.single() returns no record); a
StoreError models any exception raised by the driver or session, which
the except branch of the source converts into the default features. -/

/-- A counterparty node linked through a letter of credit. -/
structure Counterparty where
  name : String
  on_sanctions_list : Bool
deriving DecidableEq

/-- An in-window letter of credit (LC) node with the properties read by
the extraction queries. -/
structure LCRec where
  amount : ℚ
  has_discrepancy : Bool
  shipment_delayed : Bool
  payment_delay_days : ℚ
  amended : Bool
  document_completeness : ℚ
  counterparty : Option Counterparty
  port_country_risk : Option Int
  suspicious_activity : Bool
  fraud_flag : Bool
  aml_alert : Bool
deriving DecidableEq

/-- The in-window neighbourhood of an entity in the graph. -/
def GraphSnapshot := List LCRec

/-- An error raised by the underlying graph store. -/
inductive StoreError where
  | unavailable : StoreError
deriving DecidableEq

/-- The 12-field feature dict, in source order. -/
structure FeatureDict where
  transaction_count : ℚ
  total_exposure : ℚ
  avg_lc_amount : ℚ
  discrepancy_rate : ℚ
  late_shipment_rate : ℚ
  payment_delay_avg : ℚ
  counterparty_diversity : ℚ
  high_risk_country_exposure : ℚ
  sanctions_exposure : ℚ
  doc_completeness : ℚ
  amendment_rate : ℚ
  fraud_flags : ℚ
deriving DecidableEq

/-- Embedding of extract_features._get_default_features. -/
def get_default_features : FeatureDict :=
  { transaction_count := 0, total_exposure := 0, avg_lc_amount := 0,
    discrepancy_rate := 0, late_shipment_rate := 0, payment_delay_avg := 0,
    counterparty_diversity := 0, high_risk_country_exposure := 0,
    sanctions_exposure := 0, doc_completeness := 1, amendment_rate := 0,
    fraud_flags := 0 }

/-- Embedding of extract_features._get_counterparty_diversity: number of
distinct counterparty names over the in-window LCs; 0 for entity types
other than Buyer and Seller. -/
def get_counterparty_diversity (entity_type : String) (lcs : GraphSnapshot) : Nat :=
  if entity_type = "Buyer" ∨ entity_type = "Seller" then
    ((lcs.filterMap LCRec.counterparty).map Counterparty.name).dedup.length
  else 0

/-- Embedding of extract_features._get_high_risk_country_exposure:
fraction of in-window LCs whose port country has risk score at least 7,
with the matched country list collected optionally. -/
def get_high_risk_country_exposure (lcs : GraphSnapshot) : ℚ :=
  if 0 < lcs.length then
    ((lcs.filterMap LCRec.port_country_risk).countP (fun s => decide (7 ≤ s)) : ℚ)
      / (lcs.length : ℚ)
  else 0

/-- Embedding of extract_features._get_sanctions_exposure: fraction of
distinct counterparties that are on a sanctions list; 0 for entity types
other than Buyer and Seller and when there is no counterparty. -/
def get_sanctions_exposure (entity_type : String) (lcs : GraphSnapshot) : ℚ :=
  if entity_type = "Buyer" ∨ entity_type = "Seller" then
    let cps := (lcs.filterMap LCRec.counterparty).dedup
    if 0 < cps.length then
      (cps.countP Counterparty.on_sanctions_list : ℚ) / (cps.length : ℚ)
    else 0
  else 0

/-- Embedding of extract_features._get_fraud_flags: number of in-window
LCs carrying a suspicious-activity, fraud or AML marker. -/
def get_fraud_flags (lcs : GraphSnapshot) : Nat :=
  lcs.countP (fun lc => lc.suspicious_activity || lc.fraud_flag || lc.aml_alert)

/-- Embedding of extract_features.extract_entity_features.  The main
query aggregates counts and sums over the in-window LCs; rates divide by
the transaction count when it is positive and default to 0 (1.0 for
doc_completeness) otherwise.  An absent entity and a store error both
produce the default features: the except branch of the source catches
every exception and returns _get_default_features(). -/
def extract_entity_features (store : Except StoreError (Option GraphSnapshot))
    (entity_type : String) : FeatureDict :=
  match store with
  | .error _ => get_default_features
  | .ok none => get_default_features
  | .ok (some lcs) =>
    let tx_count : Nat := lcs.length
    let total_exposure : ℚ := (lcs.map LCRec.amount).sum
    let discrepancy_count : Nat := lcs.countP LCRec.has_discrepancy
    let late_shipment_count : Nat := lcs.countP LCRec.shipment_delayed
    let total_payment_delay : ℚ := (lcs.map LCRec.payment_delay_days).sum
    let amendment_count : Nat := lcs.countP LCRec.amended
    let total_completeness : ℚ := (lcs.map LCRec.document_completeness).sum
    { transaction_count := tx_count
      total_exposure := total_exposure
      avg_lc_amount := if 0 < tx_count then total_exposure / tx_count else 0
      discrepancy_rate := if 0 < tx_count then (discrepancy_count : ℚ) / tx_count else 0
      late_shipment_rate := if 0 < tx_count then (late_shipment_count : ℚ) / tx_count else 0
      payment_delay_avg := if 0 < tx_count then total_payment_delay / tx_count else 0
      counterparty_diversity := get_counterparty_diversity entity_type lcs
      high_risk_country_exposure := get_high_risk_country_exposure lcs
      sanctions_exposure := get_sanctions_exposure entity_type lcs
      doc_completeness := if 0 < tx_count then total_completeness / tx_count else 1
      amendment_rate := if 0 < tx_count then (amendment_count : ℚ) / tx_count else 0
      fraud_flags := get_fraud_flags lcs }

/-! ### Risk scoring (score_entity.py)

The trained XGBoost model is opaque: predict_proba is modelled by an
arbitrary function from the extracted features to a probability.  The
model artifact check at the top of score_entity_risk is modelled by a
boolean; a missing artifact raises FileNotFoundError.  The
risk_factors list, which interpolates feature values into display
strings, is informational only and is not modelled. -/

/-- The result dict of score_entity_risk. -/
structure RiskScoreResult where
  entity_name : String
  risk_score : ℚ
  risk_level : String
  features : FeatureDict
  recommendation : String
deriving DecidableEq

/-- Embedding of score_entity.score_entity_risk: fail when the model
artifact is missing; return the neutral unknown result when the entity
has no transaction history; otherwise map the model probability to a
risk level and recommendation with thresholds 0.7 and 0.4. -/
def score_entity_risk (model_exists : Bool)
    (store : Except StoreError (Option GraphSnapshot))
    (entity_name entity_type : String)
    (predict_proba : FeatureDict → ℚ) : Except String RiskScoreResult :=
  if !model_exists then .error "FileNotFoundError: Model not found"
  else
    let features := extract_entity_features store entity_type
    if features.transaction_count = 0 then
      .ok { entity_name := entity_name, risk_score := 1 / 2,
            risk_level := "unknown", features := features,
            recommendation := "REVIEW - New entity, no history" }
    else
      let risk_score := predict_proba features
      if risk_score ≥ 7 / 10 then
        .ok { entity_name := entity_name, risk_score := risk_score,
              risk_level := "high", features := features,
              recommendation := "BLOCK - High risk entity" }
      else if risk_score ≥ 4 / 10 then
        .ok { entity_name := entity_name, risk_score := risk_score,
              risk_level := "medium", features := features,
              recommendation := "REVIEW - Medium risk, manual review required" }
      else
        .ok { entity_name := entity_name, risk_score := risk_score,
              risk_level := "low", features := features,
              recommendation := "APPROVE - Low risk entity" }

/-- A letter of credit with unremarkable properties, used as a concrete
store content in witnesses. -/
def demoLC : LCRec :=
  { amount := 100000, has_discrepancy := false, shipment_delayed := false,
    payment_delay_days := 0, amended := false, document_completeness := 1,
    counterparty := some ⟨"Counter Co", false⟩, port_country_risk := some 1,
    suspicious_activity := false, fraud_flag := false, aml_alert := false }

/-! ### Concrete sanity checks of the embedding -/

example : normalize_name "Foo-Ltd" = "FOO LTD" := by decide
example : normalize_name "FOO LTD" = "FOO" := by decide
example : normalize_name "ACME Corp. Ltd." = "ACME CORP LTD" := by decide
example : normalize_name "ACME Corporation" = "ACME" := by decide
example : normalize_name "  Evil   Trading  " = "EVIL TRADING" := by decide
example : normalize_name "!!!" = "" := by decide
example : fuzz_ratio_score "AB" "ACDEF" = 200 / 7 := by with_unfolding_all rfl
example : token_sort_ratio_score "B A" "A B" = 100 := by with_unfolding_all rfl
example : fuzzy_match_sanctions "Anything" [] none = none := by with_unfolding_all rfl
example :
    fuzzy_match_sanctions "ACME Corp" [⟨"ACME Corporation", "OFAC", none, none⟩] none
      = some (⟨"ACME Corporation", "OFAC", none, none⟩, 1) := by with_unfolding_all rfl
example : get_country_risk "IR" = ⟨"IR", 10, "high", true⟩ := by decide
example : get_country_risk "hk" = ⟨"HK", 1, "low", true⟩ := by decide
example : get_country_risk "XX" = ⟨"XX", 5, "medium", false⟩ := by decide
example :
    (screen_entity "HSBC Hong Kong" "HK" "Bank" none true [] false).recommendation
      = "APPROVE" := by with_unfolding_all rfl
example :
    (screen_entity "Tehran Trading Corp" "IR" "Seller" none true [] false).recommendation
      = "REVIEW" := by with_unfolding_all rfl
example :
    (screen_entity "Evil Trading" "US" "Buyer" none true
        [⟨"EVIL TRADING", "OFAC", some "SDGT", none⟩] false).recommendation
      = "BLOCK" := by with_unfolding_all rfl
example :
    extract_entity_features (.ok (some [])) "Buyer" = get_default_features := by
  with_unfolding_all rfl
example :
    extract_entity_features (.error .unavailable) "Buyer" = get_default_features := rfl
example :
    (score_entity_risk true (.ok (some [demoLC])) "E" "Buyer" (fun _ => 1 / 5)).map
        RiskScoreResult.risk_level = .ok "low" := by with_unfolding_all rfl
example :
    (score_entity_risk true (.ok (some [demoLC])) "E" "Buyer" (fun _ => 1 / 2)).map
        RiskScoreResult.risk_level = .ok "medium" := by with_unfolding_all rfl
example :
    (score_entity_risk true (.ok (some [])) "E" "Buyer" (fun _ => 1 / 5)).map
        RiskScoreResult.risk_level = .ok "unknown" := by with_unfolding_all rfl

/-! ### Claim C1: decision policy thresholds -/

/-- Claim C1 counterexample: at probability 0.35, which lies in the
claimed medium band 0.30 to 0.70, score_entity_risk returns category
low with recommendation APPROVE - Low risk entity, not medium with
APPROVE_WITH_CONDITIONS and a 500,000 USD credit limit; no credit limit
is produced at all. -/
theorem C1_decision_policy_counterexample :
    (score_entity_risk true (.ok (some [demoLC])) "E" "Buyer" (fun _ => 7 / 20)).map
        RiskScoreResult.risk_level = .ok "low" ∧
    (score_entity_risk true (.ok (some [demoLC])) "E" "Buyer" (fun _ => 7 / 20)).map
        RiskScoreResult.recommendation = .ok "APPROVE - Low risk entity" ∧
    (3 / 10 : ℚ) ≤ 7 / 20 ∧ (7 / 20 : ℚ) < 7 / 10 :=
  ⟨by with_unfolding_all rfl, by with_unfolding_all rfl, by norm_num, by norm_num⟩

/-- Claim C1 amended: for an entity with transaction history, the
classifier probability is mapped by fixed non-overlapping thresholds:
p below 0.4 yields category low and recommendation APPROVE - Low risk
entity; 0.4 to below 0.7 yields medium and REVIEW - Medium risk, manual
review required; at least 0.7 yields high and BLOCK - High risk entity.
No credit limit is produced. -/
theorem C1_decision_policy (store : Except StoreError (Option GraphSnapshot))
    (en et : String) (pp : FeatureDict → ℚ)
    (h : (extract_entity_features store et).transaction_count ≠ 0) :
    (pp (extract_entity_features store et) < 4 / 10 →
      (score_entity_risk true store en et pp).map RiskScoreResult.risk_level = .ok "low" ∧
      (score_entity_risk true store en et pp).map RiskScoreResult.recommendation
        = .ok "APPROVE - Low risk entity") ∧
    (4 / 10 ≤ pp (extract_entity_features store et) →
      pp (extract_entity_features store et) < 7 / 10 →
      (score_entity_risk true store en et pp).map RiskScoreResult.risk_level = .ok "medium" ∧
      (score_entity_risk true store en et pp).map RiskScoreResult.recommendation
        = .ok "REVIEW - Medium risk, manual review required") ∧
    (7 / 10 ≤ pp (extract_entity_features store et) →
      (score_entity_risk true store en et pp).map RiskScoreResult.risk_level = .ok "high" ∧
      (score_entity_risk true store en et pp).map RiskScoreResult.recommendation
        = .ok "BLOCK - High risk entity") := by
  simp only [score_entity_risk, Bool.not_true, Bool.false_eq_true, if_false, if_neg h]
  refine ⟨fun hp => ?_, fun hp1 hp2 => ?_, fun hp => ?_⟩
  · rw [if_neg (by linarith), if_neg (by linarith)]
    exact ⟨rfl, rfl⟩
  · rw [if_neg (by linarith), if_pos hp1]
    exact ⟨rfl, rfl⟩
  · rw [if_pos hp]
    exact ⟨rfl, rfl⟩

/-- Claim C1 witness: at probability 0.5 with one transaction on
record, the medium branch of the amended claim applies. -/
theorem C1_decision_policy_witness :
    (score_entity_risk true (.ok (some [demoLC])) "E" "Buyer" (fun _ => 1 / 2)).map
        RiskScoreResult.risk_level = .ok "medium" ∧
    (score_entity_risk true (.ok (some [demoLC])) "E" "Buyer" (fun _ => 1 / 2)).map
        RiskScoreResult.recommendation = .ok "REVIEW - Medium risk, manual review required" :=
  (C1_decision_policy (.ok (some [demoLC])) "E" "Buyer" (fun _ => 1 / 2)
    (by with_unfolding_all decide)).2.1 (by norm_num) (by norm_num)

/-! ### Claim C3: store errors and the feature extractor -/

/-- Claim C3 counterexample: a store error does not surface to the
caller; extract_entity_features converts it into the default feature
vector, whose rate fields are all zero. -/
theorem C3_store_error_counterexample :
    extract_entity_features (.error .unavailable) "Buyer" = get_default_features ∧
    get_default_features.discrepancy_rate = 0 ∧
    get_default_features.sanctions_exposure = 0 :=
  ⟨rfl, rfl, rfl⟩

/-- Claim C3 amended: every error of the underlying graph store is
caught by extract_entity_features and silently converted into the
default (zero-rate) feature vector; no StoreUnavailable condition
reaches the caller. -/
theorem C3_store_error_defaults (e : StoreError) (entity_type : String) :
    extract_entity_features (.error e) entity_type = get_default_features := rfl

/-! ### Claim C5: zero-transaction default vector -/

/-- Claim C5 counterexample: for an entity with zero transactions in
the window the rate fields are 0, not a neutral midpoint such as 0.5. -/
theorem C5_zero_transactions_counterexample :
    (extract_entity_features (.ok (some [])) "Buyer").transaction_count = 0 ∧
    (extract_entity_features (.ok (some [])) "Buyer").doc_completeness = 1 ∧
    (extract_entity_features (.ok (some [])) "Buyer").discrepancy_rate = 0 ∧
    (extract_entity_features (.ok (some [])) "Buyer").late_shipment_rate = 0 ∧
    (extract_entity_features (.ok (some [])) "Buyer").amendment_rate = 0 ∧
    (extract_entity_features (.ok (some [])) "Buyer").high_risk_country_exposure = 0 ∧
    (extract_entity_features (.ok (some [])) "Buyer").sanctions_exposure = 0 := by
  with_unfolding_all decide

/-- Claim C5 amended: an entity present in the graph with zero
transactions in the lookback window receives transaction_count 0,
doc_completeness 1.0 and every rate field 0 (the extractor is a total
function, so no error is raised); this is exactly the documented
default vector. -/
theorem C5_zero_transactions_defaults (entity_type : String) :
    extract_entity_features (.ok (some [])) entity_type = get_default_features := by
  simp only [extract_entity_features, get_counterparty_diversity,
    get_high_risk_country_exposure, get_sanctions_exposure, get_fraud_flags,
    get_default_features, List.length_nil, List.map_nil, List.sum_nil,
    List.countP_nil, List.filterMap_nil, List.dedup_nil, lt_irrefl, if_false]
  split_ifs <;> simp

/-! ### Claim C7: batch screening result count -/

/-- Claim C7: batch_screen of zero entities does not return zero
results; the summary logging divides the recommendation counts by the
total result count, which raises ZeroDivisionError on an empty batch
instead of returning an empty list.  (For a nonempty batch the count
and isolation property does hold, but the claim includes N = 0.) -/
theorem C7_empty_batch_zero_division
    (outcome : BatchEntity → Except String ScreeningResult) :
    batch_screen [] outcome = .error "ZeroDivisionError: division by zero" := rfl

/-! ### Claim C9: risk categories -/

/-- Claim C9 counterexample: scoring an entity with no transaction
history returns category unknown, which is none of low, medium, high. -/
theorem C9_risk_levels_counterexample :
    (score_entity_risk true (.ok (some [])) "E" "Buyer" (fun _ => 1 / 5)).map
        RiskScoreResult.risk_level = .ok "unknown" ∧
    ("unknown" ≠ "low" ∧ "unknown" ≠ "medium" ∧ "unknown" ≠ "high") :=
  ⟨by with_unfolding_all rfl, by decide⟩

/-- Claim C9 amended: every scoring call that returns a RiskScore
yields a category in the set containing low, medium, high and
unknown. -/
theorem C9_risk_levels (model_exists : Bool)
    (store : Except StoreError (Option GraphSnapshot))
    (en et : String) (pp : FeatureDict → ℚ)
    (h : (score_entity_risk model_exists store en et pp).isOk = true) :
    (score_entity_risk model_exists store en et pp).map RiskScoreResult.risk_level
        = .ok "low" ∨
    (score_entity_risk model_exists store en et pp).map RiskScoreResult.risk_level
        = .ok "medium" ∨
    (score_entity_risk model_exists store en et pp).map RiskScoreResult.risk_level
        = .ok "high" ∨
    (score_entity_risk model_exists store en et pp).map RiskScoreResult.risk_level
        = .ok "unknown" := by
  unfold score_entity_risk at h ⊢
  by_cases hm : (!model_exists) = true
  · rw [if_pos hm] at h
    exact absurd h (by decide)
  · rw [if_neg hm] at h ⊢
    by_cases h0 : (extract_entity_features store et).transaction_count = 0
    · rw [if_pos h0]
      right; right; right; rfl
    · rw [if_neg h0]
      by_cases h7 : 7 / 10 ≤ pp (extract_entity_features store et)
      · rw [if_pos h7]
        right; right; left; rfl
      · rw [if_neg h7]
        by_cases h4 : 4 / 10 ≤ pp (extract_entity_features store et)
        · rw [if_pos h4]
          right; left; rfl
        · rw [if_neg h4]
          left; rfl

/-- Claim C9 witness: a scoring call that succeeds, with probability
0.2 and one transaction on record, lands in the four-element set. -/
theorem C9_risk_levels_witness :
    (score_entity_risk true (.ok (some [demoLC])) "E" "Buyer" (fun _ => 1 / 5)).map
        RiskScoreResult.risk_level = .ok "low" ∨
    (score_entity_risk true (.ok (some [demoLC])) "E" "Buyer" (fun _ => 1 / 5)).map
        RiskScoreResult.risk_level = .ok "medium" ∨
    (score_entity_risk true (.ok (some [demoLC])) "E" "Buyer" (fun _ => 1 / 5)).map
        RiskScoreResult.risk_level = .ok "high" ∨
    (score_entity_risk true (.ok (some [demoLC])) "E" "Buyer" (fun _ => 1 / 5)).map
        RiskScoreResult.risk_level = .ok "unknown" :=
  C9_risk_levels true (.ok (some [demoLC])) "E" "Buyer" (fun _ => 1 / 5)
    (by with_unfolding_all rfl)

/-! ### Claim C10: empty normalized query names -/

/-- Claim C10: a query whose normalization is empty never fuzzy-matches:
for every reference list and every threshold the result is no match,
and the embedding is a total function, so no error is raised. -/
theorem C10_empty_normalized_no_match (q : String) (l : List SanctionRecord)
    (th : Option ℚ) (h : normalize_name q = "") :
    fuzzy_match_sanctions q l th = none := by
  simp [fuzzy_match_sanctions, h]

/-- Claim C10 witness: a punctuation-only name normalizes to the empty
string and yields no match against a nonempty reference list. -/
theorem C10_empty_normalized_no_match_witness :
    normalize_name "..." = "" ∧
    fuzzy_match_sanctions "..." [⟨"EVIL TRADING", "OFAC", none, none⟩] (some 0) = none :=
  ⟨by decide, C10_empty_normalized_no_match "..."
    [⟨"EVIL TRADING", "OFAC", none, none⟩] (some 0) (by decide)⟩

/-! ### Claim C2: exact sanctions matches are terminal BLOCKs -/

/-- Claim C2: when some sanctions reference name matches the normalized
entity name exactly (case-insensitively, that is, its uppercased form
equals the normalized query), screen_entity reports match_type exact
with match_score 1.0 and recommendation BLOCK, and neither the network
exposure step nor the country risk step changes that BLOCK, for every
country, threshold, network flag and network outcome. -/
theorem C2_exact_match_block (en cc et : String) (th : Option ℚ) (cn : Bool)
    (sanctions : List SanctionRecord) (net : Bool)
    (h : ∃ s ∈ sanctions, pyUpperStr s.name = normalize_name en) :
    (screen_entity en cc et th cn sanctions net).sanctions_match = true ∧
    (screen_entity en cc et th cn sanctions net).match_type = some "exact" ∧
    (screen_entity en cc et th cn sanctions net).match_score = some 1 ∧
    (screen_entity en cc et th cn sanctions net).recommendation = "BLOCK" := by
  have hfind : (sanctions.find? (fun s => pyUpperStr s.name == normalize_name en)).isSome := by
    rw [List.find?_isSome]
    obtain ⟨s, hs, heq⟩ := h
    exact ⟨s, hs, by simp [heq]⟩
  obtain ⟨s, hs⟩ := Option.isSome_iff_exists.mp hfind
  simp [screen_entity, country_risk_step, screen_steps123, hs]

/-- Claim C2 witness: a direct hit on the reference list is blocked even
with a high-risk country and a positive network query outcome. -/
theorem C2_exact_match_block_witness :
    (screen_entity "Evil Trading" "IR" "Buyer" none true
        [⟨"EVIL TRADING", "OFAC", some "SDGT", none⟩] true).sanctions_match = true ∧
    (screen_entity "Evil Trading" "IR" "Buyer" none true
        [⟨"EVIL TRADING", "OFAC", some "SDGT", none⟩] true).match_type = some "exact" ∧
    (screen_entity "Evil Trading" "IR" "Buyer" none true
        [⟨"EVIL TRADING", "OFAC", some "SDGT", none⟩] true).match_score = some 1 ∧
    (screen_entity "Evil Trading" "IR" "Buyer" none true
        [⟨"EVIL TRADING", "OFAC", some "SDGT", none⟩] true).recommendation = "BLOCK" :=
  C2_exact_match_block "Evil Trading" "IR" "Buyer" none true
    [⟨"EVIL TRADING", "OFAC", some "SDGT", none⟩] true (by decide)

/-! ### Claim C4: fuzzy threshold scale -/

/-- Claim C4: during a screening call with the default threshold, a
fuzzy match IS reported although the best similarity is far below 0.85:
screen_entity passes config.FUZZY_THRESHOLD (0.85) to
fuzzy_match_sanctions, which uses it as an extractOne cutoff on the
0 to 100 scale, so a similarity of 2/7 (about 0.29) is reported as a
match with recommendation REVIEW.  The source intends the cutoff to be
85 on that scale, as the None-threshold branch of fuzzy_match_sanctions
(config.FUZZY_THRESHOLD * 100) and its docstring show. -/
theorem C4_fuzzy_threshold_unit_bug :
    (screen_entity "AB" "US" "Entity" none true
        [⟨"ACDEF", "OFAC", none, none⟩] false).sanctions_match = true ∧
    (screen_entity "AB" "US" "Entity" none true
        [⟨"ACDEF", "OFAC", none, none⟩] false).match_type = some "fuzzy" ∧
    (screen_entity "AB" "US" "Entity" none true
        [⟨"ACDEF", "OFAC", none, none⟩] false).match_score = some (2 / 7) ∧
    (screen_entity "AB" "US" "Entity" none true
        [⟨"ACDEF", "OFAC", none, none⟩] false).recommendation = "REVIEW" ∧
    (2 / 7 : ℚ) < 85 / 100 :=
  ⟨by with_unfolding_all rfl, by with_unfolding_all rfl, by with_unfolding_all rfl,
   by with_unfolding_all rfl, by norm_num⟩

/-! ### Claim C8: country-risk upgrades -/

/-- Claim C8: the country-risk step upgrades an APPROVE recommendation
to REVIEW whenever the country risk score is at least 8, and it never
changes a BLOCK or REVIEW recommendation produced by the earlier
steps. -/
theorem C8_country_risk_upgrade (en cc et : String) (th : Option ℚ) (cn : Bool)
    (sanctions : List SanctionRecord) (net : Bool) :
    (8 ≤ (get_country_risk cc).risk_score →
      (screen_steps123 en cc et th cn sanctions net).recommendation = "APPROVE" →
      (screen_entity en cc et th cn sanctions net).recommendation = "REVIEW") ∧
    ((screen_steps123 en cc et th cn sanctions net).recommendation = "BLOCK" ∨
      (screen_steps123 en cc et th cn sanctions net).recommendation = "REVIEW" →
      (screen_entity en cc et th cn sanctions net).recommendation
        = (screen_steps123 en cc et th cn sanctions net).recommendation) := by
  unfold screen_entity country_risk_step
  constructor
  · intro h8 happ
    rw [if_pos ⟨h8, happ⟩]
  · intro hbr
    rw [if_neg]
    rintro ⟨-, habs⟩
    rcases hbr with hb | hr
    · rw [hb] at habs
      exact absurd habs (by decide)
    · rw [hr] at habs
      exact absurd habs (by decide)

/-- Claim C8 witness: a clean entity from a country with risk score 10
is upgraded from APPROVE to REVIEW. -/
theorem C8_country_risk_upgrade_witness :
    (screen_entity "Clean Industries" "IR" "Entity" none true [] false).recommendation
      = "REVIEW" :=
  (C8_country_risk_upgrade "Clean Industries" "IR" "Entity" none true [] false).1
    (by decide) (by decide)

/-! ### Claim C6: idempotence of the name normalizer

normalize_name is not idempotent in general: stripping suffixes happens
before punctuation is replaced by spaces, so a suffix that becomes
exposed by the punctuation pass survives the first normalization and is
stripped by a second one.  The lemmas below establish the amended
statement: idempotence holds exactly when the normalized form does not
end with one of the suffixes. -/

theorem char_ofNat_toNat (n : Nat) (h : n.isValidChar) : (Char.ofNat n).toNat = n := by
  unfold Char.ofNat
  rw [dif_pos h]
  rfl

theorem char_toUpper_idem (c : Char) : c.toUpper.toUpper = c.toUpper := by
  unfold Char.toUpper
  by_cases h : c.toNat ≥ 97 ∧ c.toNat ≤ 122
  · rw [if_pos h]
    have hv : (Char.ofNat (c.toNat - 32)).toNat = c.toNat - 32 :=
      char_ofNat_toNat _ (Or.inl (by omega))
    rw [hv, if_neg (by omega)]
  · rw [if_neg h, if_neg h]

theorem char_toUpper_space : Char.toUpper ' ' = ' ' := by decide

theorem stripFold_subset (L : List String) (x : List Char) :
    L.foldl
      (fun n suf =>
        if suf.data.isSuffixOf n then n.take (n.length - suf.data.length) else n)
      x ⊆ x := by
  induction L generalizing x with
  | nil => exact fun c hc => hc
  | cons s L ih =>
    intro c hc
    have step :
        (if s.data.isSuffixOf x then x.take (x.length - s.data.length) else x) ⊆ x := by
      split
      · exact List.take_subset _ _
      · exact fun c hc => hc
    exact step (ih _ hc)

theorem stripFold_eq_self (L : List String) (x : List Char)
    (h : ∀ suf ∈ L, suf.data.isSuffixOf x = false) :
    L.foldl
      (fun n suf =>
        if suf.data.isSuffixOf n then n.take (n.length - suf.data.length) else n)
      x = x := by
  induction L with
  | nil => rfl
  | cons s L ih =>
    have hs : s.data.isSuffixOf x = false := h s (List.mem_cons_self s L)
    simp only [List.foldl_cons, hs, Bool.false_eq_true, if_false]
    exact ih fun suf hsuf => h suf (List.mem_cons_of_mem s hsuf)

theorem mem_stripSuffixesL {c : Char} {l : List Char} (h : c ∈ stripSuffixesL l) :
    c ∈ l :=
  stripFold_subset SUFFIXES l h

theorem stripSuffixesL_eq_self {l : List Char}
    (h : ∀ suf ∈ SUFFIXES, suf.data.isSuffixOf l = false) :
    stripSuffixesL l = l :=
  stripFold_eq_self SUFFIXES l h

theorem mem_alnumSpaceL {c : Char} {l : List Char} (h : c ∈ alnumSpaceL l) :
    (c.isAlphanum || c.isWhitespace) = true ∧ (c = ' ' ∨ c ∈ l) := by
  simp only [alnumSpaceL] at h
  obtain ⟨d, hd, hc⟩ := List.mem_map.mp h
  by_cases hp : (d.isAlphanum || d.isWhitespace) = true
  · rw [if_pos hp] at hc
    exact ⟨hc ▸ hp, Or.inr (hc ▸ hd)⟩
  · rw [if_neg hp] at hc
    subst hc
    exact ⟨by decide, Or.inl rfl⟩

theorem alnumSpaceL_eq_self {l : List Char}
    (h : ∀ c ∈ l, (c.isAlphanum || c.isWhitespace) = true) :
    alnumSpaceL l = l := by
  induction l with
  | nil => rfl
  | cons c l ih =>
    simp only [alnumSpaceL, List.map_cons]
    rw [if_pos (h c (List.mem_cons_self c l))]
    have := ih fun d hd => h d (List.mem_cons_of_mem c hd)
    simpa [alnumSpaceL] using this

theorem pyUpperL_eq_self {l : List Char} (h : ∀ c ∈ l, c.toUpper = c) :
    pyUpperL l = l := by
  induction l with
  | nil => rfl
  | cons c l ih =>
    simp only [pyUpperL, List.map_cons]
    rw [h c (List.mem_cons_self c l)]
    have := ih fun d hd => h d (List.mem_cons_of_mem c hd)
    simpa [pyUpperL] using this

theorem mem_pyUpperL {c : Char} {l : List Char} (h : c ∈ pyUpperL l) :
    ∃ d : Char, c = d.toUpper := by
  simp only [pyUpperL] at h
  obtain ⟨d, _, hc⟩ := List.mem_map.mp h
  exact ⟨d, hc.symm⟩

theorem splitWsAux_nil_cons (a : Char) (as : List Char) :
    splitWsAux [] (a :: as) = [(a :: as).reverse] := rfl

theorem splitWsAux_cons_nws {c : Char} (h : c.isWhitespace = false)
    (cs acc : List Char) : splitWsAux (c :: cs) acc = splitWsAux cs (c :: acc) := by
  simp [splitWsAux, h]

theorem splitWsAux_cons_ws_nil {c : Char} (h : c.isWhitespace = true)
    (cs : List Char) : splitWsAux (c :: cs) [] = splitWsAux cs [] := by
  simp [splitWsAux, h]

theorem splitWsAux_cons_ws_cons {c : Char} (h : c.isWhitespace = true)
    (cs : List Char) (a : Char) (as : List Char) :
    splitWsAux (c :: cs) (a :: as) = (a :: as).reverse :: splitWsAux cs [] := by
  simp [splitWsAux, h]

theorem splitWsAux_tokens : ∀ (l acc : List Char),
    (∀ c ∈ acc, c.isWhitespace = false) →
    ∀ t ∈ splitWsAux l acc, t ≠ [] ∧ ∀ c ∈ t, c.isWhitespace = false := by
  intro l
  induction l with
  | nil =>
    intro acc hacc t ht
    cases acc with
    | nil => cases ht
    | cons a as =>
      rw [splitWsAux_nil_cons] at ht
      rw [List.mem_singleton.mp ht]
      refine ⟨by simp, fun c hc => hacc c ?_⟩
      exact List.mem_reverse.mp hc
  | cons c cs ih =>
    intro acc hacc t ht
    by_cases hw : c.isWhitespace = true
    · cases acc with
      | nil =>
        rw [splitWsAux_cons_ws_nil hw] at ht
        exact ih [] (by simp) t ht
      | cons a as =>
        rw [splitWsAux_cons_ws_cons hw] at ht
        rcases List.mem_cons.mp ht with rfl | ht'
        · refine ⟨by simp, fun d hd => hacc d ?_⟩
          exact List.mem_reverse.mp hd
        · exact ih [] (by simp) t ht'
    · have hw' : c.isWhitespace = false := by simpa using hw
      rw [splitWsAux_cons_nws hw'] at ht
      refine ih (c :: acc) ?_ t ht
      intro d hd
      rcases List.mem_cons.mp hd with rfl | hd'
      · exact hw'
      · exact hacc d hd'

theorem splitWsAux_chars : ∀ (l acc : List Char), ∀ t ∈ splitWsAux l acc,
    ∀ c ∈ t, c ∈ l ∨ c ∈ acc := by
  intro l
  induction l with
  | nil =>
    intro acc t ht c hc
    cases acc with
    | nil => cases ht
    | cons a as =>
      rw [splitWsAux_nil_cons] at ht
      rw [List.mem_singleton.mp ht] at hc
      exact Or.inr (List.mem_reverse.mp hc)
  | cons x cs ih =>
    intro acc t ht c hc
    by_cases hw : x.isWhitespace = true
    · cases acc with
      | nil =>
        rw [splitWsAux_cons_ws_nil hw] at ht
        rcases ih [] t ht c hc with h1 | h0
        · exact Or.inl (List.mem_cons_of_mem x h1)
        · cases h0
      | cons a as =>
        rw [splitWsAux_cons_ws_cons hw] at ht
        rcases List.mem_cons.mp ht with rfl | ht'
        · exact Or.inr (List.mem_reverse.mp hc)
        · rcases ih [] t ht' c hc with h1 | h0
          · exact Or.inl (List.mem_cons_of_mem x h1)
          · cases h0
    · have hw' : x.isWhitespace = false := by simpa using hw
      rw [splitWsAux_cons_nws hw'] at ht
      rcases ih (x :: acc) t ht c hc with h1 | h2
      · exact Or.inl (List.mem_cons_of_mem x h1)
      · rcases List.mem_cons.mp h2 with rfl | h3
        · exact Or.inl (List.mem_cons_self c cs)
        · exact Or.inr h3

theorem splitWsAux_append (t : List Char)
    (ht : ∀ c ∈ t, c.isWhitespace = false) :
    ∀ (cs acc : List Char), splitWsAux (t ++ cs) acc = splitWsAux cs (t.reverse ++ acc) := by
  induction t with
  | nil => intro cs acc; simp
  | cons c t ih =>
    intro cs acc
    have hc : c.isWhitespace = false := ht c (List.mem_cons_self c t)
    rw [List.cons_append, splitWsAux_cons_nws hc,
      ih (fun d hd => ht d (List.mem_cons_of_mem c hd))]
    simp

theorem reverse_ne_nil {t : List Char} (h : t ≠ []) : ∃ a as, t.reverse = a :: as := by
  cases htr : t.reverse with
  | nil => exact absurd (by simpa using htr) h
  | cons a as => exact ⟨a, as, rfl⟩

theorem splitWs_joinSp : ∀ (ts : List (List Char)),
    (∀ t ∈ ts, t ≠ [] ∧ ∀ c ∈ t, c.isWhitespace = false) →
    splitWsL (joinSpL ts) = ts := by
  intro ts
  induction ts with
  | nil => intro _; rfl
  | cons t ts ih =>
    intro h
    obtain ⟨htne, htc⟩ := h t (List.mem_cons_self t ts)
    obtain ⟨a, as, har⟩ := reverse_ne_nil htne
    cases ts with
    | nil =>
      show splitWsAux (joinSpL [t]) [] = [t]
      have : joinSpL [t] = t ++ [] := by simp [joinSpL]
      rw [this, splitWsAux_append t htc [] [], List.append_nil, har,
        splitWsAux_nil_cons, ← har, List.reverse_reverse]
    | cons t2 ts2 =>
      show splitWsAux (t ++ ' ' :: joinSpL (t2 :: ts2)) [] = t :: t2 :: ts2
      rw [splitWsAux_append t htc _ [], List.append_nil, har,
        splitWsAux_cons_ws_cons (by decide) _ a as, ← har, List.reverse_reverse]
      have := ih fun u hu => h u (List.mem_cons_of_mem t hu)
      rw [show splitWsAux (joinSpL (t2 :: ts2)) [] = splitWsL (joinSpL (t2 :: ts2)) from rfl,
        this]

theorem dropWhile_ws_joinSp (ts : List (List Char))
    (h : ∀ t ∈ ts, t ≠ [] ∧ ∀ c ∈ t, c.isWhitespace = false) :
    (joinSpL ts).dropWhile Char.isWhitespace = joinSpL ts := by
  cases ts with
  | nil => rfl
  | cons t ts =>
    obtain ⟨htne, htc⟩ := h t (List.mem_cons_self t ts)
    obtain ⟨a, t', rfl⟩ : ∃ a t'', t = a :: t'' := by
      cases t with
      | nil => exact absurd rfl htne
      | cons a t'' => exact ⟨a, t'', rfl⟩
    have ha : a.isWhitespace = false := htc a (List.mem_cons_self a t')
    cases ts with
    | nil => simp [joinSpL, List.dropWhile_cons, ha]
    | cons t2 ts2 => simp [joinSpL, List.dropWhile_cons, ha]

theorem joinSp_reverse_nonws : ∀ (ts : List (List Char)), ts ≠ [] →
    (∀ t ∈ ts, t ≠ [] ∧ ∀ c ∈ t, c.isWhitespace = false) →
    ∃ a rest, (joinSpL ts).reverse = a :: rest ∧ a.isWhitespace = false := by
  intro ts
  induction ts with
  | nil => intro hne; exact absurd rfl hne
  | cons t ts ih =>
    intro _ h
    obtain ⟨htne, htc⟩ := h t (List.mem_cons_self t ts)
    cases ts with
    | nil =>
      obtain ⟨a, as, har⟩ := reverse_ne_nil htne
      refine ⟨a, as, by simpa [joinSpL] using har, ?_⟩
      have : a ∈ t.reverse := by rw [har]; exact List.mem_cons_self a as
      exact htc a (List.mem_reverse.mp this)
    | cons t2 ts2 =>
      obtain ⟨a, rest, hrev, ha⟩ :=
        ih (by simp) fun u hu => h u (List.mem_cons_of_mem t hu)
      refine ⟨a, rest ++ ' ' :: t.reverse, ?_, ha⟩
      show ((t ++ ' ' :: joinSpL (t2 :: ts2)).reverse = _)
      rw [List.reverse_append, List.reverse_cons, hrev]
      simp

theorem trimWs_joinSp (ts : List (List Char))
    (h : ∀ t ∈ ts, t ≠ [] ∧ ∀ c ∈ t, c.isWhitespace = false) :
    trimWsL (joinSpL ts) = joinSpL ts := by
  unfold trimWsL
  rw [dropWhile_ws_joinSp ts h]
  cases ts with
  | nil => rfl
  | cons t ts' =>
    obtain ⟨a, rest, hrev, ha⟩ := joinSp_reverse_nonws (t :: ts') (by simp) h
    rw [hrev, List.dropWhile_cons, if_neg (by simp [ha]), ← hrev, List.reverse_reverse]

theorem mem_joinSpL {c : Char} : ∀ {ts : List (List Char)}, c ∈ joinSpL ts →
    c = ' ' ∨ ∃ t ∈ ts, c ∈ t := by
  intro ts
  induction ts with
  | nil => intro h; cases h
  | cons t ts ih =>
    intro h
    cases ts with
    | nil => exact Or.inr ⟨t, List.mem_cons_self t [], h⟩
    | cons t2 ts2 =>
      rcases List.mem_append.mp h with h1 | h2
      · exact Or.inr ⟨t, List.mem_cons_self t _, h1⟩
      · rcases List.mem_cons.mp h2 with rfl | h3
        · exact Or.inl rfl
        · rcases ih h3 with h4 | ⟨u, hu, hcu⟩
          · exact Or.inl h4
          · exact Or.inr ⟨u, List.mem_cons_of_mem t hu, hcu⟩

theorem normChars_idem (l : List Char)
    (h : ∀ suf ∈ SUFFIXES, suf.data.isSuffixOf (normChars l) = false) :
    normChars (normChars l) = normChars l := by
  have htok : ∀ t ∈ splitWsL (alnumSpaceL (stripSuffixesL (pyUpperL l))),
      t ≠ [] ∧ ∀ c ∈ t, c.isWhitespace = false :=
    splitWsAux_tokens _ [] (by simp)
  have ho : normChars l = joinSpL (splitWsL (alnumSpaceL (stripSuffixesL (pyUpperL l)))) :=
    trimWs_joinSp _ htok
  have hchar : ∀ c ∈ normChars l,
      c.toUpper = c ∧ (c.isAlphanum || c.isWhitespace) = true := by
    intro c hc
    rw [ho] at hc
    rcases mem_joinSpL hc with rfl | ⟨t, htm, hct⟩
    · exact ⟨char_toUpper_space, by decide⟩
    · have hcm : c ∈ alnumSpaceL (stripSuffixesL (pyUpperL l)) := by
        rcases splitWsAux_chars _ [] t htm c hct with hm' | h0
        · exact hm'
        · cases h0
      obtain ⟨hb, hor⟩ := mem_alnumSpaceL hcm
      refine ⟨?_, hb⟩
      rcases hor with rfl | hmem
      · exact char_toUpper_space
      · obtain ⟨d, rfl⟩ := mem_pyUpperL (mem_stripSuffixesL hmem)
        exact char_toUpper_idem d
  have h1 : pyUpperL (normChars l) = normChars l :=
    pyUpperL_eq_self fun c hc => (hchar c hc).1
  have h2 : stripSuffixesL (normChars l) = normChars l :=
    stripSuffixesL_eq_self h
  have h3 : alnumSpaceL (normChars l) = normChars l :=
    alnumSpaceL_eq_self fun c hc => (hchar c hc).2
  show trimWsL (joinSpL (splitWsL (alnumSpaceL (stripSuffixesL (pyUpperL (normChars l)))))) =
    normChars l
  rw [h1, h2, h3, ho, splitWs_joinSp _ htok]
  exact trimWs_joinSp _ htok

/-- Claim C6 counterexample: normalize_name is not idempotent.  For the
name Foo-Ltd the first normalization replaces the hyphen by a space and
yields FOO LTD, which now ends with the suffix LTD, so a second
normalization strips it down to FOO. -/
theorem C6_normalize_idempotent_counterexample :
    normalize_name (normalize_name "Foo-Ltd") ≠ normalize_name "Foo-Ltd" := by decide

/-- Claim C6 amended: normalize_name is idempotent on every name whose
normalized form does not end with one of the legal-entity suffixes;
when punctuation exposes a suffix (as in Foo-Ltd) the second
application strips further. -/
theorem C6_normalize_idempotent (s : String)
    (h : ∀ suf ∈ SUFFIXES, suf.data.isSuffixOf (normalize_name s).data = false) :
    normalize_name (normalize_name s) = normalize_name s := by
  by_cases hs : s = ""
  · subst hs
    simp [normalize_name]
  · have hdata : (normalize_name s).data = normChars s.data := by
      rw [normalize_name, if_neg hs]
    by_cases ho : normalize_name s = ""
    · rw [ho]
      simp [normalize_name]
    · rw [normalize_name, if_neg ho, hdata, normChars_idem s.data (hdata ▸ h)]
      rw [normalize_name, if_neg hs]

/-- Claim C6 witness: a name whose normalization ends in no suffix is a
fixed point of a second normalization. -/
theorem C6_normalize_idempotent_witness :
    (∀ suf ∈ SUFFIXES, suf.data.isSuffixOf (normalize_name "Acme Widgets").data = false) ∧
    normalize_name (normalize_name "Acme Widgets") = normalize_name "Acme Widgets" :=
  ⟨by decide, C6_normalize_idempotent "Acme Widgets" (by decide)⟩

end TradeFinance
